import Mathlib

set_option linter.unusedVariables false

/-! Shallow embedding of the assistant-ui OpenAI-compatibility gateway
(`src/index.ts`).

Text is modelled as `List Char`: the contents of a JS string after
`TextDecoder` decoding.  Since the code decodes every read with
`decoder.decode(value, ...)` in streaming mode, partial multi-byte sequences are
carried across reads, so each upstream read delivers a character sequence
and the concatenation of the reads is the decoded character stream.

The first section models the JS builtins the translation pipeline leans on:
`JSON.parse` (a total, fuel-indexed parser for RFC 8259 JSON), property
access, truthiness, and string coercion. -/

/-- JSON value as produced by `JSON.parse`.  A number is kept exactly as
`mantissa * 10 ^ exp10` (no floating-point rounding; only the parts of
number semantics the gateway observes — chiefly truthiness — matter). -/
inductive Json where
  | null
  | bool (b : Bool)
  | num (mantissa : Int) (exp10 : Int)
  | str (s : List Char)
  | arr (elems : List Json)
  | obj (fields : List (List Char × Json))

/-- JSON insignificant whitespace (RFC 8259: space, tab, LF, CR). -/
def isJsonWs (c : Char) : Bool :=
  c = ' ' || c = '\t' || c = '\n' || c = '\r'

/-- Drop leading JSON whitespace. -/
def skipWs (cs : List Char) : List Char := cs.dropWhile isJsonWs

/-- ASCII decimal digit test. -/
def isDigitCh (c : Char) : Bool := '0' ≤ c && c ≤ '9'

/-- Value of a decimal digit character. -/
def digitVal (c : Char) : Nat := c.toNat - ('0').toNat

/-- Longest digit run at the front of the input, and the rest. -/
def takeDigits (cs : List Char) : List Char × List Char :=
  (cs.takeWhile isDigitCh, cs.dropWhile isDigitCh)

/-- Decimal value of a digit run. -/
def digitsToNat (ds : List Char) : Nat :=
  ds.foldl (fun a c => a * 10 + digitVal c) 0

/-- Value of a hexadecimal letter digit relative to a case base (a or A). -/
def hexLetterVal (base c : Char) : Option Nat :=
  if base ≤ c && c.toNat ≤ base.toNat + 5 then some (c.toNat - base.toNat + 10) else none

/-- Value of one hexadecimal digit, if any. -/
def hexDigitVal (c : Char) : Option Nat :=
  if isDigitCh c then some (digitVal c)
  else
    match hexLetterVal 'a' c with
    | some v => some v
    | none => hexLetterVal 'A' c

/-- Value of a four-digit hexadecimal escape. -/
def hexQuad (a b c d : Char) : Option Nat :=
  match hexDigitVal a, hexDigitVal b, hexDigitVal c, hexDigitVal d with
  | some va, some vb, some vc, some vd => some (((va * 16 + vb) * 16 + vc) * 16 + vd)
  | _, _, _, _ => none

/-- Lookup table of the single-character JSON string escapes. -/
def escPairs : List (Char × Char) :=
  [('"', '"'), ('\\', '\\'), ('/', '/'), ('b', Char.ofNat 8), ('f', Char.ofNat 12),
    ('n', '\n'), ('r', '\r'), ('t', '\t')]

/-- Single-character JSON string escapes. -/
def escapeChar (c : Char) : Option Char :=
  (escPairs.find? (fun p => p.1 = c)).map (fun p => p.2)

/-- Parse the body of a JSON string after the opening quote; yields the
decoded characters and the input after the closing quote.  (`\uXXXX` for a
non-scalar code point is approximated by `Char.ofNat`, which JS would keep
as a UTF-16 surrogate; the gateway never inspects such strings.) -/
def parseStrRest : List Char → Option (List Char × List Char)
  | [] => none
  | '"' :: r => some ([], r)
  | '\\' :: 'u' :: a :: b :: c :: d :: r =>
    match hexQuad a b c d with
    | some n =>
      match parseStrRest r with
      | some (s, r2) => some (Char.ofNat n :: s, r2)
      | none => none
    | none => none
  | '\\' :: e :: r =>
    match escapeChar e with
    | some c =>
      match parseStrRest r with
      | some (s, r2) => some (c :: s, r2)
      | none => none
    | none => none
  | c :: r =>
    if c.toNat < 32 then none
    else
      match parseStrRest r with
      | some (s, r2) => some (c :: s, r2)
      | none => none

/-- Parse an optional JSON fraction part (a dot requires at least one digit). -/
def parseFrac : List Char → Option (List Char × List Char)
  | '.' :: r =>
    match takeDigits r with
    | ([], _) => none
    | (fs, r2) => some (fs, r2)
  | r => some ([], r)

/-- Parse an optional JSON exponent part. -/
def parseExpPart : List Char → Option (Int × List Char)
  | c :: r =>
    if c = 'e' || c = 'E' then
      let signAndRest : Int × List Char :=
        match r with
        | '+' :: r2 => (1, r2)
        | '-' :: r2 => (-1, r2)
        | r2 => (1, r2)
      match takeDigits signAndRest.2 with
      | ([], _) => none
      | (es, r3) => some (signAndRest.1 * (digitsToNat es : Int), r3)
    else some (0, c :: r)
  | [] => some (0, [])

/-- Parse a JSON number (strict grammar: optional minus, no leading zeros,
fraction and exponent parts each requiring digits). -/
def parseNumRest (cs : List Char) : Option (Json × List Char) :=
  let signed : Bool × List Char :=
    match cs with
    | '-' :: r => (true, r)
    | r => (false, r)
  match takeDigits signed.2 with
  | ([], _) => none
  | ('0' :: _ :: _, _) => none
  | (ds, cs2) =>
    match parseFrac cs2 with
    | none => none
    | some (fds, cs3) =>
      match parseExpPart cs3 with
      | none => none
      | some (ex, cs4) =>
        let m : Int := (digitsToNat (ds ++ fds) : Int)
        some (.num (if signed.1 then -m else m) (ex - (fds.length : Int)), cs4)

/-- Drop an expected literal from the front of the input, if present. -/
def dropLit : List Char → List Char → Option (List Char)
  | [], cs => some cs
  | l :: ls, c :: cs => if c = l then dropLit ls cs else none
  | _ :: _, [] => none

/-- Opening curly bracket (kept out of literals for hygiene). -/
def obrace : Char := Char.ofNat 123

/-- Closing curly bracket. -/
def cbrace : Char := Char.ofNat 125

mutual

/-- Parse one JSON value (fuel-indexed so totality is structural). -/
def parseVal : Nat → List Char → Option (Json × List Char)
  | 0, _ => none
  | fuel + 1, cs =>
    match dropLit (("null").data) (skipWs cs) with
    | some r => some (.null, r)
    | none =>
    match dropLit (("true").data) (skipWs cs) with
    | some r => some (.bool true, r)
    | none =>
    match dropLit (("false").data) (skipWs cs) with
    | some r => some (.bool false, r)
    | none =>
    match skipWs cs with
    | '"' :: r =>
      (match parseStrRest r with
       | some (s, r2) => some (.str s, r2)
       | none => none)
    | '[' :: r =>
      (match skipWs r with
       | ']' :: r2 => some (.arr [], r2)
       | r2 =>
         match parseElems fuel r2 with
         | some (xs, r3) => some (.arr xs, r3)
         | none => none)
    | c :: r =>
      if c = obrace then
        match skipWs r with
        | c2 :: r2 =>
          if c2 = cbrace then some (.obj [], r2)
          else
            (match parseMembers fuel (c2 :: r2) with
             | some (fs, r3) => some (.obj fs, r3)
             | none => none)
        | [] => none
      else parseNumRest (c :: r)
    | [] => none

/-- Parse the elements of a non-empty JSON array, up to and including `]`. -/
def parseElems : Nat → List Char → Option (List Json × List Char)
  | 0, _ => none
  | fuel + 1, cs =>
    match parseVal fuel cs with
    | none => none
    | some (v, r) =>
      match skipWs r with
      | ',' :: r2 =>
        (match parseElems fuel r2 with
         | some (xs, r3) => some (v :: xs, r3)
         | none => none)
      | ']' :: r2 => some ([v], r2)
      | _ => none

/-- Parse the members of a non-empty JSON object, up to and including the
closing brace. -/
def parseMembers : Nat → List Char → Option (List (List Char × Json) × List Char)
  | 0, _ => none
  | fuel + 1, cs =>
    match skipWs cs with
    | '"' :: r =>
      (match parseStrRest r with
       | none => none
       | some (k, r2) =>
         match skipWs r2 with
         | ':' :: r3 =>
           (match parseVal fuel r3 with
            | none => none
            | some (v, r4) =>
              match skipWs r4 with
              | ',' :: r5 =>
                (match parseMembers fuel r5 with
                 | some (fs, r6) => some ((k, v) :: fs, r6)
                 | none => none)
              | c :: r5 => if c = cbrace then some ([(k, v)], r5) else none
              | [] => none)
         | _ => none)
    | _ => none

end

/-- Model of `JSON.parse`: whole input must be one JSON value plus
whitespace.  The fuel bound is generous; every recursive descent consumes
input, so it never runs out on inputs the grammar accepts. -/
def jsonParse (cs : List Char) : Option Json :=
  match parseVal (2 * cs.length + 2) cs with
  | some (v, rest) => if (skipWs rest).isEmpty then some v else none
  | none => none

/-- Model of JS property access `ev[key]` on a parsed JSON value: defined
for objects (a duplicated key keeps the last occurrence, as in JS); on any
non-object the gateway's access yields `undefined` (or, for `null`, throws
a `TypeError` that the surrounding `catch` swallows) — both are `none`
here. -/
def jsGet (j : Json) (key : List Char) : Option Json :=
  match j with
  | .obj fs => fs.foldl (fun acc f => if f.1 = key then some f.2 else acc) none
  | _ => none

/-- JS truthiness of a parsed JSON value (`undefined` is handled at the
`Option` layer by the callers). -/
def truthy (j : Json) : Bool :=
  match j with
  | .null => false
  | .bool b => b
  | .num m _ => !(m = 0)
  | .str s => !s.isEmpty
  | .arr _ => true
  | .obj _ => true

/-- Decimal digits of an integer. -/
def intChars (i : Int) : List Char :=
  if i < 0 then '-' :: Nat.toDigits 10 i.natAbs else Nat.toDigits 10 i.natAbs

/-- Model of JS string coercion (`"" + v`) for the values the buffered loop
can append.  Exact on strings — the only case any claim exercises; numbers,
arrays and exotic exponents are approximated (the gateway never relies on
them, and a falsy value never reaches this point). -/
def jsToString (j : Json) : List Char :=
  match j with
  | .str s => s
  | .null => ("null").data
  | .bool true => ("true").data
  | .bool false => ("false").data
  | .num m e => if e = 0 then intChars m else intChars m ++ 'e' :: intChars e
  | .arr _ => []
  | .obj _ => ("[object Object]").data

/-! ### Stream Translator: framing and per-line recognition

The two read loops (`src/index.ts` streaming handler, lines 131-166, and
buffered handler, lines 173-209) share the framing steps verbatim:

    buffer += decoder.decode(value, ...streaming...);
    const lines = buffer.split("\n");
    buffer = lines.pop() || "";

`splitNl` models `buffer.split("\n")` together with the `pop`: it returns
the complete lines and the retained (possibly empty) final segment. -/

/-- Split a character sequence at newlines: the complete lines (everything
before the last newline) and the trailing segment after the last newline.
`splitNl s = (ls, r)` corresponds to JS `ls = s.split("\n"); r = ls.pop()`. -/
def splitNl : List Char → List (List Char) × List Char
  | [] => ([], [])
  | c :: cs =>
    if c = '\n' then ([] :: (splitNl cs).1, (splitNl cs).2)
    else
      match splitNl cs with
      | ([], r) => ([], c :: r)
      | (l :: ls, r) => ((c :: l) :: ls, r)

/-- Character class of JS `String.prototype.trim` (the whitespace and line
terminators that can realistically occur here). -/
def jsWsCh (c : Char) : Bool :=
  c = ' ' || c = '\t' || c = '\n' || c = '\r' ||
  c = Char.ofNat 11 || c = Char.ofNat 12 || c = Char.ofNat 160 || c = Char.ofNat 65279

/-- Model of JS `s.trim()`. -/
def jsTrim (cs : List Char) : List Char :=
  ((cs.dropWhile jsWsCh).reverse.dropWhile jsWsCh).reverse

/-- Model of `line.startsWith("data: ")` followed by `line.slice(6).trim()`:
the trimmed data portion of an SSE data line, if the line is one. -/
def lineData : List Char → Option (List Char)
  | 'd' :: 'a' :: 't' :: 'a' :: ':' :: ' ' :: rest => some (jsTrim rest)
  | _ => none

/-- The sentinel `[DONE]` as characters. -/
def doneChars : List Char := ['[', 'D', 'O', 'N', 'E', ']']

/-- Key `"type"`. -/
def typeKey : List Char := ['t', 'y', 'p', 'e']

/-- Key `"delta"`. -/
def deltaKey : List Char := ['d', 'e', 'l', 't', 'a']

/-- The discriminator value `"text-delta"`. -/
def textDeltaTag : List Char := ['t', 'e', 'x', 't', '-', 'd', 'e', 'l', 't', 'a']

/-- Model of `event.type === "text-delta" && event.delta`: the delta value
of a recognized text-delta event, when truthy. -/
def eventOut (ev : Json) : Option Json :=
  match jsGet ev typeKey with
  | some (.str t) =>
    if t = textDeltaTag then
      match jsGet ev deltaKey with
      | some d => if truthy d then some d else none
      | none => none
    else none
  | _ => none

/-- Per-line recognition of the streaming loop (lines 142-159): a data line
is skipped when it is the `[DONE]` sentinel, dropped silently when it is
not valid JSON (the empty `catch`), and yields its delta when it is a
recognized `text-delta` event. -/
def streamLineOut (line : List Char) : Option Json :=
  match lineData line with
  | none => none
  | some d =>
    if d = doneChars then none
    else
      match jsonParse d with
      | none => none
      | some ev => eventOut ev

/-- Per-line recognition of the buffered loop (lines 186-193): identical
except that there is no `[DONE]` check — the sentinel simply fails
`JSON.parse` and is dropped by the `catch`. -/
def bufferedLineOut (line : List Char) : Option Json :=
  match lineData line with
  | none => none
  | some d =>
    match jsonParse d with
    | none => none
    | some ev => eventOut ev

/-! ### Stream Translator: the two read loops

An upstream body is a sequence of read results: `chunk s` is a successful
`reader.read()` delivering the characters `s`, and `fail` is a read whose
promise rejects.  The list ending is `done: true`. -/

/-- One result of `reader.read()` on the upstream body. -/
inductive ReadEv where
  | chunk (s : List Char)
  | fail

/-- One unit written to the outbound SSE stream: a completion chunk whose
`choices[0].delta.content` is the given value (its `id` and `created`
fields are fresh randomness/time, not modelled), or the final
`data: [DONE]` terminator. -/
inductive OutFrame where
  | chunk (content : Json)
  | done

/-- Fate of the outbound stream: closed normally, or put into an error
state by `controller.error` (the frames already enqueued stay delivered). -/
inductive StreamResult where
  | closed (frames : List OutFrame)
  | aborted (frames : List OutFrame)

/-- The streaming loop (lines 132-165): reads until `done`, frames lines,
emits one chunk per recognized delta, then the `[DONE]` terminator; a read
failure hits the `catch` which errors the controller. -/
def streamLoop : List Json → List Char → List ReadEv → StreamResult
  | emitted, _, [] => .closed (emitted.map OutFrame.chunk ++ [OutFrame.done])
  | emitted, _, .fail :: _ => .aborted (emitted.map OutFrame.chunk)
  | emitted, buffer, .chunk s :: rest =>
    let p := splitNl (buffer ++ s)
    streamLoop (emitted ++ p.1.filterMap streamLineOut) p.2 rest

/-- Run the streaming handler on an upstream body. -/
def streamRun (body : List ReadEv) : StreamResult := streamLoop [] [] body

/-- One pass of the buffered loop's inner `for` over complete lines:
`fullContent += event.delta` for each recognized delta (with JS string
coercion). -/
def lineAcc (content : List Char) (lines : List (List Char)) : List Char :=
  lines.foldl
    (fun acc l =>
      match bufferedLineOut l with
      | some d => acc ++ jsToString d
      | none => acc)
    content

/-- The buffered loop (lines 179-195): accumulates `fullContent` until the
upstream ends; a read failure propagates to the handler's `catch`. -/
def bufLoop : List Char → List Char → List ReadEv → Except Unit (List Char)
  | content, _, [] => .ok content
  | _, _, .fail :: _ => .error ()
  | content, buffer, .chunk s :: rest =>
    let p := splitNl (buffer ++ s)
    bufLoop (lineAcc content p.1) p.2 rest

/-- Run the buffered loop on an upstream body, yielding `fullContent`. -/
def bufRun (body : List ReadEv) : Except Unit (List Char) := bufLoop [] [] body

/-! ### Request Translator and the chat-completions handler

`chatHandler` models the `/v1/chat/completions` branch (lines 86-215):
destructuring the body, building the upstream payload, dispatching on the
upstream status, and selecting the streaming or buffered path.  Fresh
randomness (`generateId`) is supplied as an oracle `gen` indexed by message
position, and the upstream response is a parameter. -/

/-- One inbound OpenAI-style message. -/
structure InMsg where
  role : List Char
  content : List Char

/-- One part of an upstream message; `partType` is its `type` field,
always the literal `"text"` here. -/
structure UpPart where
  partType : List Char
  text : List Char

/-- One message of the upstream payload. -/
structure UpMsg where
  role : List Char
  parts : List UpPart
  id : List Char

/-- The message translation (`convertMessages`, lines 250-256; inlined
verbatim at lines 100-104): each message becomes
`(role, [one text part], freshId)`.  The index passed to
`gen` counts the `generateId()` calls. -/
def convertMessages (gen : Nat → List Char) : Nat → List InMsg → List UpMsg
  | _, [] => []
  | i, m :: ms =>
    UpMsg.mk m.role [UpPart.mk (['t', 'e', 'x', 't']) m.content] (gen i) ::
      convertMessages gen (i + 1) ms

/-- The parsed inbound request body: `messages` is `none` when the JSON
body has no `messages` field. -/
structure ChatBody where
  messages : Option (List InMsg)
  stream : Bool
  modelId : List Char

/-- The upstream payload envelope (lines 94-110): constant thread id,
constant trigger, translated messages, and the model echoed in metadata.
The constant `tools` declaration carries no request data and is omitted. -/
structure Payload where
  threadId : List Char
  messages : List UpMsg
  trigger : List Char
  metadataModelId : List Char

/-- Build the upstream payload from the (present) messages list. -/
def buildPayload (gen : Nat → List Char) (body : ChatBody) (ms : List InMsg) : Payload where
  threadId := ("DEFAULT_THREAD_ID").data
  messages := convertMessages gen 0 ms
  trigger := ("submit-message").data
  metadataModelId := body.modelId

/-- The upstream HTTP response: its status and its body read results. -/
structure UpstreamResp where
  status : Nat
  body : List ReadEv

/-- Model of `Response.ok`: status in the 200-299 range. -/
def respOk (s : Nat) : Bool := 200 ≤ s && s ≤ 299

/-- Model of `targetResp.text()`: the whole body as text, or a failure that
the handler's `catch` turns into a 500. -/
def readAllText : List ReadEv → Except Unit (List Char)
  | [] => .ok []
  | .fail :: _ => .error ()
  | .chunk s :: r =>
    match readAllText r with
    | .ok t => .ok (s ++ t)
    | .error e => .error e

/-- The buffered-mode completion object (lines 197-208), minus the fresh
`id`/`created` fields. -/
structure Completion where
  object : List Char
  model : List Char
  role : List Char
  content : List Char
  finish_reason : List Char
  prompt_tokens : Nat
  completion_tokens : Nat
  total_tokens : Nat

/-- What the handler sends back to the inbound client. -/
inductive GatewayResult where
  | errorResp (status : Nat) (message : List Char) (details : Option (List Char))
  | streamResp (r : StreamResult)
  | jsonResp (c : Completion)

/-- The `/v1/chat/completions` handler (lines 86-215).  With no `messages`
field, `messages.map(...)` at line 100 throws a `TypeError` before the
upstream call, landing in the `catch` at line 211: a 500 response.  A
non-2xx upstream status yields the 502 branch with the upstream body as
`details` (line 118-122).  Otherwise the requested mode's loop runs. -/
def chatHandler (gen : Nat → List Char) (body : ChatBody) (up : UpstreamResp) : GatewayResult :=
  match body.messages with
  | none => .errorResp 500 (("Internal Server Error").data) none
  | some ms =>
    let payload := buildPayload gen body ms
    if respOk up.status then
      if body.stream then
        .streamResp (streamRun up.body)
      else
        match bufRun up.body with
        | .ok content =>
          .jsonResp
            (Completion.mk (("chat.completion").data) body.modelId
              (("assistant").data) content (("stop").data) 0 0 0)
        | .error _ => .errorResp 500 (("Internal Server Error").data) none
    else
      match readAllText up.body with
      | .ok t => .errorResp 502 (("Upstream Error").data) (some t)
      | .error _ => .errorResp 500 (("Internal Server Error").data) none

/-! ### Derived notions used in the statements -/

/-- A character sequence containing no newline (a single SSE line, or a
trailing fragment). -/
def nlFree (l : List Char) : Bool := l.all (fun c => !(c = '\n'))

/-- Rebuild a byte stream from newline-terminated lines. -/
def unlines (ls : List (List Char)) : List Char :=
  (ls.map (fun l => l ++ ['\n'])).flatten

/-- The recognized `text-delta` units of a decoded upstream text: the
complete lines, each put through the streaming recognizer. -/
def recognizedDeltas (s : List Char) : List Json :=
  (splitNl s).1.filterMap streamLineOut

/-- Whether a parsed upstream event carries the `text-delta` discriminator. -/
def isTextDeltaEvent (j : Json) : Bool :=
  match jsGet j typeKey with
  | some (.str t) => t = textDeltaTag
  | _ => false

/-- A line that cannot contribute output: not a data line, or its data is
not valid JSON, or the parsed event is not a `text-delta` event. -/
def lineNonDelta (l : List Char) : Bool :=
  match lineData l with
  | none => true
  | some d =>
    match jsonParse d with
    | none => true
    | some ev => !(isTextDeltaEvent ev)

/-- A well-formed upstream SSE line carrying a `text-delta` event with the
given delta text (used by concrete witnesses). -/
def tdLine (d : List Char) : List Char :=
  ('d' :: 'a' :: 't' :: 'a' :: ':' :: ' ' :: obrace ::
      (("\"type\":\"text-delta\",\"delta\":\"").data)) ++ d ++ ['"', cbrace]

/-- An upstream SSE data line holding a JSON object with the given inner
text (used by concrete witnesses). -/
def objLine (inner : List Char) : List Char :=
  ('d' :: 'a' :: 't' :: 'a' :: ':' :: ' ' :: obrace :: inner) ++ [cbrace]

theorem splitNl_append (a b : List Char) :
    splitNl (a ++ b) =
      ((splitNl a).1 ++ (splitNl ((splitNl a).2 ++ b)).1,
       (splitNl ((splitNl a).2 ++ b)).2) := by
  induction a with
  | nil => simp [splitNl]
  | cons c a ih =>
    rcases hA : splitNl a with ⟨ls1, r1⟩
    by_cases hc : c = '\n'
    · subst hc
      simp [splitNl, ih, hA]
    · cases ls1 with
      | nil =>
        rcases hX : splitNl (r1 ++ b) with ⟨xs, x2⟩
        cases xs with
        | nil => simp [splitNl, ih, hA, hX, hc]
        | cons x xs => simp [splitNl, ih, hA, hX, hc]
      | cons l ls =>
        rcases hX : splitNl (r1 ++ b) with ⟨xs, x2⟩
        simp [splitNl, ih, hA, hX, hc]

theorem splitNl_nlFree (l : List Char) (h : nlFree l = true) : splitNl l = ([], l) := by
  induction l with
  | nil => rfl
  | cons c l ih =>
    rw [nlFree, List.all_cons, Bool.and_eq_true] at h
    have hc : ¬(c = '\n') := by simpa using h.1
    simp [splitNl, hc, ih h.2]

theorem nlFree_splitNl_snd (l : List Char) : nlFree (splitNl l).2 = true := by
  induction l with
  | nil => rfl
  | cons c l ih =>
    by_cases hc : c = '\n'
    · simp [splitNl, hc, ih]
    · rcases hA : splitNl l with ⟨ls1, r1⟩
      rw [hA] at ih
      cases ls1 with
      | nil =>
        simp only [splitNl, if_neg hc, hA]
        rw [nlFree, List.all_cons, Bool.and_eq_true]
        exact ⟨by simpa using hc, by simpa [nlFree] using ih⟩
      | cons x xs => simpa [splitNl, hc, hA, nlFree] using ih

theorem splitNl_pushLine (l rest : List Char) (h : nlFree l = true) :
    splitNl (l ++ '\n' :: rest) = (l :: (splitNl rest).1, (splitNl rest).2) := by
  induction l with
  | nil => simp [splitNl]
  | cons c l ih =>
    rw [nlFree, List.all_cons, Bool.and_eq_true] at h
    have hc : ¬(c = '\n') := by simpa using h.1
    simp [splitNl, hc, ih h.2]

theorem splitNl_unlines (ls : List (List Char)) (h : ∀ l ∈ ls, nlFree l = true) :
    splitNl (unlines ls) = (ls, []) := by
  induction ls with
  | nil => rfl
  | cons l ls ih =>
    have hl : nlFree l = true := h l (by simp)
    have hrest : ∀ x ∈ ls, nlFree x = true := fun x hx => h x (by simp [hx])
    rw [unlines, List.map_cons, List.flatten_cons, List.append_assoc,
      List.singleton_append, splitNl_pushLine _ _ hl]
    rw [unlines] at ih
    rw [ih hrest]

theorem streamLoop_chunks (chunks : List (List Char)) (em : List Json) (buf : List Char)
    (h : nlFree buf = true) :
    streamLoop em buf (chunks.map ReadEv.chunk) =
      .closed ((em ++ (splitNl (buf ++ chunks.flatten)).1.filterMap streamLineOut).map OutFrame.chunk
        ++ [OutFrame.done]) := by
  induction chunks generalizing em buf with
  | nil => simp [streamLoop, splitNl_nlFree _ h]
  | cons s rest ih =>
    simp only [List.map_cons, streamLoop, List.flatten_cons]
    rw [ih _ _ (nlFree_splitNl_snd _)]
    have hsp := splitNl_append (buf ++ s) rest.flatten
    rw [List.append_assoc] at hsp
    rw [hsp]
    simp [List.filterMap_append, List.append_assoc]

theorem lineAcc_append (c : List Char) (l1 l2 : List (List Char)) :
    lineAcc c (l1 ++ l2) = lineAcc (lineAcc c l1) l2 := by
  simp [lineAcc, List.foldl_append]

theorem bufLoop_chunks (chunks : List (List Char)) (content buf : List Char)
    (h : nlFree buf = true) :
    bufLoop content buf (chunks.map ReadEv.chunk) =
      .ok (lineAcc content (splitNl (buf ++ chunks.flatten)).1) := by
  induction chunks generalizing content buf with
  | nil => simp [bufLoop, splitNl_nlFree _ h, lineAcc]
  | cons s rest ih =>
    simp only [List.map_cons, bufLoop, List.flatten_cons]
    rw [ih _ _ (nlFree_splitNl_snd _)]
    have hsp := splitNl_append (buf ++ s) rest.flatten
    rw [List.append_assoc] at hsp
    rw [hsp]
    simp [lineAcc_append]

theorem bufLoop_fail (pre : List (List Char)) (post : List ReadEv) (content buf : List Char) :
    bufLoop content buf (pre.map ReadEv.chunk ++ ReadEv.fail :: post) = .error () := by
  induction pre generalizing content buf with
  | nil => simp [bufLoop]
  | cons s rest ih => simp [bufLoop, ih]

theorem bufferedLineOut_eq (l : List Char) : bufferedLineOut l = streamLineOut l := by
  rw [bufferedLineOut, streamLineOut]
  cases h : lineData l with
  | none => rfl
  | some d =>
    by_cases hd : d = doneChars
    · subst hd
      have hp : jsonParse doneChars = none := rfl
      simp [hp]
    · simp [hd]

theorem lineAcc_eq (content : List Char) (lines : List (List Char)) :
    lineAcc content lines =
      content ++ ((lines.filterMap bufferedLineOut).map jsToString).flatten := by
  induction lines generalizing content with
  | nil => simp [lineAcc]
  | cons l ls ih =>
    rw [lineAcc, List.foldl_cons]
    cases h : bufferedLineOut l with
    | none =>
      rw [← lineAcc]
      simp [ih, h]
    | some d =>
      rw [← lineAcc]
      simp [ih, h]

theorem streamRun_chunks (chunks : List (List Char)) :
    streamRun (chunks.map ReadEv.chunk) =
      .closed ((recognizedDeltas chunks.flatten).map OutFrame.chunk ++ [OutFrame.done]) := by
  simpa [streamRun, recognizedDeltas] using streamLoop_chunks chunks [] [] rfl

theorem bufRun_chunks (chunks : List (List Char)) :
    bufRun (chunks.map ReadEv.chunk) =
      .ok (((recognizedDeltas chunks.flatten).map jsToString).flatten) := by
  have hfun : bufferedLineOut = streamLineOut := funext bufferedLineOut_eq
  have h := bufLoop_chunks chunks [] [] rfl
  rw [bufRun, h, lineAcc_eq]
  simp [recognizedDeltas, hfun]

theorem streamLineOut_nonDelta (l : List Char) (h : lineNonDelta l = true) :
    streamLineOut l = none := by
  rw [lineNonDelta] at h
  rw [streamLineOut]
  cases hd : lineData l with
  | none => rfl
  | some d =>
    rw [hd] at h
    dsimp only at h ⊢
    by_cases hdone : d = doneChars
    · simp [hdone]
    · rw [if_neg hdone]
      cases hp : jsonParse d with
      | none => rfl
      | some ev =>
        rw [hp] at h
        dsimp only at h ⊢
        rw [eventOut]
        rw [isTextDeltaEvent] at h
        cases hg : jsGet ev typeKey with
        | none => rfl
        | some v =>
          rw [hg] at h
          cases v with
          | str t =>
            dsimp only at h
            simp only [Bool.not_eq_true'] at h
            have ht : ¬(t = textDeltaTag) := by simpa using h
            simp [ht]
          | null => rfl
          | bool b => rfl
          | num m e => rfl
          | arr xs => rfl
          | obj fs => rfl

theorem flatten_map_singleton (s : List Char) : (s.map (fun c => [c])).flatten = s := by
  induction s <;> simp [*]

/-- C1: chunk-boundary independence of the framing algorithm — delivering an
upstream character stream as single-character reads produces the same
streaming result (same chunks, same terminator) and the same buffered result
(same concatenated content) as delivering it as one single read. -/
theorem C1_chunk_boundary_independence (s : List Char) :
    streamRun ((s.map (fun c => [c])).map ReadEv.chunk) = streamRun ([s].map ReadEv.chunk)
  ∧ bufRun ((s.map (fun c => [c])).map ReadEv.chunk) = bufRun ([s].map ReadEv.chunk) := by
  constructor
  · rw [streamRun_chunks, streamRun_chunks, flatten_map_singleton]
    simp
  · rw [bufRun_chunks, bufRun_chunks, flatten_map_singleton]
    simp

/-- C2: streaming-mode emission and ordering — when the recognized
`text-delta` events of the upstream stream carry the delta values `ds` in
order, the outbound stream is exactly one chunk per delta, in that order,
followed by the `data: [DONE]` terminator, and is closed normally. -/
theorem C2_streaming_emission_order (chunks : List (List Char)) (ds : List Json)
    (h : recognizedDeltas chunks.flatten = ds) :
    streamRun (chunks.map ReadEv.chunk) =
      .closed (ds.map OutFrame.chunk ++ [OutFrame.done]) := by
  rw [streamRun_chunks, h]

theorem C2_witness :
    recognizedDeltas ([unlines [tdLine (("Hel").data), tdLine (("lo, ").data),
        tdLine (("world").data)]] : List (List Char)).flatten =
      [Json.str (("Hel").data), Json.str (("lo, ").data), Json.str (("world").data)]
  ∧ streamRun ([unlines [tdLine (("Hel").data), tdLine (("lo, ").data),
        tdLine (("world").data)]].map ReadEv.chunk) =
      .closed ([Json.str (("Hel").data), Json.str (("lo, ").data),
          Json.str (("world").data)].map OutFrame.chunk ++ [OutFrame.done]) :=
  ⟨rfl, C2_streaming_emission_order _ _ rfl⟩

/-- C3: buffered-mode aggregation — with `stream = false` and a readable 2xx
upstream, the handler returns a single completion whose `message.content` is
the concatenation, in arrival order, of the recognized `text-delta` values,
and whose usage fields are all zero. -/
theorem C3_buffered_aggregation (gen : Nat → List Char) (msgs : List InMsg)
    (modelId : List Char) (status : Nat) (chunks : List (List Char))
    (h : respOk status = true) :
    chatHandler gen (ChatBody.mk (some msgs) false modelId)
        (UpstreamResp.mk status (chunks.map ReadEv.chunk)) =
      .jsonResp
        (Completion.mk (("chat.completion").data) modelId (("assistant").data)
          (((recognizedDeltas chunks.flatten).map jsToString).flatten)
          (("stop").data) 0 0 0) := by
  simp [chatHandler, h, bufRun_chunks]

theorem C3_witness :
    respOk 200 = true
  ∧ chatHandler (fun _ => []) (ChatBody.mk (some []) false (("m").data))
      (UpstreamResp.mk 200 ([unlines [tdLine (("Hel").data), tdLine (("lo, ").data),
          tdLine (("world").data)]].map ReadEv.chunk)) =
      .jsonResp
        (Completion.mk (("chat.completion").data) (("m").data) (("assistant").data)
          (("Hello, world").data) (("stop").data) 0 0 0) :=
  ⟨rfl,
    (C3_buffered_aggregation (fun _ => []) [] (("m").data) 200
        [unlines [tdLine (("Hel").data), tdLine (("lo, ").data),
          tdLine (("world").data)]] rfl).trans (by rfl)⟩

/-- C4: the claim says a body without a `messages` field is tolerated as an
empty list and still reaches the upstream call; in the code `messages.map`
at line 100 throws a `TypeError` on `undefined`, so the `catch` at line 211
answers 500 and the upstream is never called.  This evaluates the handler on
every such request. -/
theorem C4_missing_messages_rejected (gen : Nat → List Char) (stream : Bool)
    (modelId : List Char) (up : UpstreamResp) :
    chatHandler gen (ChatBody.mk none stream modelId) up =
      .errorResp 500 (("Internal Server Error").data) none := rfl

/-- C5: a `data: [DONE]` line in the middle of the upstream stream is
skipped without ending processing — in both modes the run over the stream
with the sentinel line inserted equals the run over the stream without it,
so `text-delta` lines after the sentinel are still recognized and only the
upstream end-of-stream ends the loop. -/
theorem C5_mid_stream_done_skipped (pre post : List (List Char))
    (h : ∀ l ∈ pre ++ post, nlFree l = true) :
    streamRun [ReadEv.chunk (unlines (pre ++ ("data: [DONE]").data :: post))] =
      streamRun [ReadEv.chunk (unlines (pre ++ post))]
  ∧ bufRun [ReadEv.chunk (unlines (pre ++ ("data: [DONE]").data :: post))] =
      bufRun [ReadEv.chunk (unlines (pre ++ post))] := by
  have hsd : streamLineOut (("data: [DONE]").data) = none := rfl
  have hall : ∀ l ∈ pre ++ ("data: [DONE]").data :: post, nlFree l = true := by
    intro l hl
    rcases List.mem_append.mp hl with h1 | h2
    · exact h l (List.mem_append.mpr (Or.inl h1))
    · rcases List.mem_cons.mp h2 with rfl | h3
      · rfl
      · exact h l (List.mem_append.mpr (Or.inr h3))
  have e1 : recognizedDeltas (unlines (pre ++ ("data: [DONE]").data :: post)) =
      recognizedDeltas (unlines (pre ++ post)) := by
    rw [recognizedDeltas, recognizedDeltas, splitNl_unlines _ hall, splitNl_unlines _ h]
    simp [List.filterMap_append, hsd]
  constructor
  · show streamRun ([unlines (pre ++ ("data: [DONE]").data :: post)].map ReadEv.chunk) =
      streamRun ([unlines (pre ++ post)].map ReadEv.chunk)
    rw [streamRun_chunks, streamRun_chunks]
    simp [e1]
  · show bufRun ([unlines (pre ++ ("data: [DONE]").data :: post)].map ReadEv.chunk) =
      bufRun ([unlines (pre ++ post)].map ReadEv.chunk)
    rw [bufRun_chunks, bufRun_chunks]
    simp [e1]

theorem C5_witness :
    (∀ l ∈ [tdLine (("A").data)] ++ [tdLine (("B").data)], nlFree l = true)
  ∧ (streamRun [ReadEv.chunk (unlines ([tdLine (("A").data)] ++
        ("data: [DONE]").data :: [tdLine (("B").data)]))] =
      streamRun [ReadEv.chunk (unlines ([tdLine (("A").data)] ++ [tdLine (("B").data)]))]
    ∧ bufRun [ReadEv.chunk (unlines ([tdLine (("A").data)] ++
        ("data: [DONE]").data :: [tdLine (("B").data)]))] =
      bufRun [ReadEv.chunk (unlines ([tdLine (("A").data)] ++ [tdLine (("B").data)]))])
  ∧ streamRun [ReadEv.chunk (unlines ([tdLine (("A").data)] ++
        ("data: [DONE]").data :: [tdLine (("B").data)]))] =
      .closed [OutFrame.chunk (Json.str (("A").data)),
        OutFrame.chunk (Json.str (("B").data)), OutFrame.done] :=
  ⟨by decide, C5_mid_stream_done_skipped [tdLine (("A").data)] [tdLine (("B").data)] (by decide),
    rfl⟩

/-- C6: buffered-mode atomicity — when a read of the upstream body fails
partway through in buffered mode, the handler answers the 500 error
response from its `catch`; no completion document (and hence no prefix of
the aggregated content) is ever returned. -/
theorem C6_buffered_atomicity (gen : Nat → List Char) (msgs : List InMsg)
    (modelId : List Char) (status : Nat) (pre : List (List Char)) (post : List ReadEv)
    (h : respOk status = true) :
    chatHandler gen (ChatBody.mk (some msgs) false modelId)
        (UpstreamResp.mk status (pre.map ReadEv.chunk ++ ReadEv.fail :: post)) =
      .errorResp 500 (("Internal Server Error").data) none := by
  have hb : bufRun (pre.map ReadEv.chunk ++ ReadEv.fail :: post) = .error () :=
    bufLoop_fail pre post [] []
  simp [chatHandler, h, hb]

theorem C6_witness :
    respOk 200 = true
  ∧ chatHandler (fun _ => []) (ChatBody.mk (some []) false (("m").data))
      (UpstreamResp.mk 200
        ([tdLine (("par").data) ++ ['\n']].map ReadEv.chunk ++ ReadEv.fail :: [])) =
      .errorResp 500 (("Internal Server Error").data) none :=
  ⟨rfl, C6_buffered_atomicity (fun _ => []) [] (("m").data) 200
    [tdLine (("par").data) ++ ['\n']] [] rfl⟩

/-- C7: silent tolerance of irrelevant input — an upstream stream whose
lines are all non-`text-delta` events, unparseable data lines, or non-data
lines yields zero chunks (just the terminator) in streaming mode and an
empty aggregated content in buffered mode, with no error. -/
theorem C7_irrelevant_input_silent (lines : List (List Char))
    (h1 : ∀ l ∈ lines, nlFree l = true) (h2 : ∀ l ∈ lines, lineNonDelta l = true) :
    streamRun [ReadEv.chunk (unlines lines)] = .closed [OutFrame.done]
  ∧ bufRun [ReadEv.chunk (unlines lines)] = .ok [] := by
  have hf : (splitNl (unlines lines)).1.filterMap streamLineOut = [] := by
    rw [splitNl_unlines _ h1]
    exact List.filterMap_eq_nil_iff.mpr fun l hl => streamLineOut_nonDelta l (h2 l hl)
  constructor
  · show streamRun ([unlines lines].map ReadEv.chunk) = _
    rw [streamRun_chunks]
    simp [recognizedDeltas, hf]
  · show bufRun ([unlines lines].map ReadEv.chunk) = _
    rw [bufRun_chunks]
    simp [recognizedDeltas, hf]

theorem C7_witness :
    (∀ l ∈ [("event: ping").data, ("data: notjson").data,
        objLine (("\"type\":\"finish\"").data), ("data: [DONE]").data], nlFree l = true)
  ∧ (∀ l ∈ [("event: ping").data, ("data: notjson").data,
        objLine (("\"type\":\"finish\"").data), ("data: [DONE]").data], lineNonDelta l = true)
  ∧ (streamRun [ReadEv.chunk (unlines [("event: ping").data, ("data: notjson").data,
        objLine (("\"type\":\"finish\"").data), ("data: [DONE]").data])] =
        .closed [OutFrame.done]
    ∧ bufRun [ReadEv.chunk (unlines [("event: ping").data, ("data: notjson").data,
        objLine (("\"type\":\"finish\"").data), ("data: [DONE]").data])] = .ok []) :=
  ⟨by decide, by decide,
    C7_irrelevant_input_silent
      [("event: ping").data, ("data: notjson").data,
        objLine (("\"type\":\"finish\"").data), ("data: [DONE]").data]
      (by decide) (by decide)⟩

/-- C8: message-list preservation — the Request Translator produces exactly
one upstream entry per source message, in order, each keeping the source
role and wrapping the source content as the single `text` part. -/
theorem C8_message_list_preservation (gen : Nat → List Char) (i : Nat) (msgs : List InMsg) :
    (convertMessages gen i msgs).length = msgs.length
  ∧ (convertMessages gen i msgs).map UpMsg.role = msgs.map InMsg.role
  ∧ (convertMessages gen i msgs).map UpMsg.parts =
      msgs.map (fun m => [UpPart.mk (['t', 'e', 'x', 't']) m.content]) := by
  induction msgs generalizing i with
  | nil => simp [convertMessages]
  | cons m ms ih =>
    have h := ih (i + 1)
    simp [convertMessages, h.1, h.2.1, h.2.2]

/-- C9: upstream non-success handling — a non-2xx upstream response with a
readable body makes the handler answer 502 with the upstream's raw body as
`details`; no stream body is ever started. -/
theorem C9_upstream_error_502 (gen : Nat → List Char) (msgs : List InMsg) (stream : Bool)
    (modelId : List Char) (status : Nat) (bodyEvs : List ReadEv) (t : List Char)
    (h1 : respOk status = false) (h2 : readAllText bodyEvs = .ok t) :
    chatHandler gen (ChatBody.mk (some msgs) stream modelId)
        (UpstreamResp.mk status bodyEvs) =
      .errorResp 502 (("Upstream Error").data) (some t) := by
  simp [chatHandler, h1, h2]

theorem C9_witness :
    respOk 500 = false
  ∧ readAllText [ReadEv.chunk (("upstream oops").data)] = .ok (("upstream oops").data)
  ∧ chatHandler (fun _ => []) (ChatBody.mk (some []) true (("m").data))
      (UpstreamResp.mk 500 [ReadEv.chunk (("upstream oops").data)]) =
      .errorResp 502 (("Upstream Error").data) (some (("upstream oops").data)) :=
  ⟨rfl, rfl,
    C9_upstream_error_502 (fun _ => []) [] true (("m").data) 500
      [ReadEv.chunk (("upstream oops").data)] (("upstream oops").data) rfl rfl⟩

/-- C10: an unterminated final line — any trailing characters after the
last newline, including a complete but not newline-terminated `data:` line —
is discarded at end-of-stream in both modes: appending such a fragment to
the upstream stream leaves both results unchanged. -/
theorem C10_trailing_fragment_discarded (chunks : List (List Char)) (extra : List Char)
    (h : nlFree extra = true) :
    streamRun ((chunks ++ [extra]).map ReadEv.chunk) = streamRun (chunks.map ReadEv.chunk)
  ∧ bufRun ((chunks ++ [extra]).map ReadEv.chunk) = bufRun (chunks.map ReadEv.chunk) := by
  have key : recognizedDeltas ((chunks ++ [extra]).flatten) =
      recognizedDeltas chunks.flatten := by
    rw [List.flatten_append]
    simp only [List.flatten_cons, List.flatten_nil, List.append_nil]
    rw [recognizedDeltas, recognizedDeltas, splitNl_append chunks.flatten extra]
    have h2 : nlFree ((splitNl chunks.flatten).2 ++ extra) = true := by
      have ha := nlFree_splitNl_snd chunks.flatten
      rw [nlFree] at ha h ⊢
      rw [List.all_append, ha, h]
      rfl
    rw [splitNl_nlFree _ h2]
    simp
  constructor
  · rw [streamRun_chunks, streamRun_chunks, key]
  · rw [bufRun_chunks, bufRun_chunks, key]

theorem C10_witness :
    nlFree (tdLine (("x").data)) = true
  ∧ (streamRun (([unlines [tdLine (("a").data)]] ++ [tdLine (("x").data)]).map ReadEv.chunk) =
        streamRun ([unlines [tdLine (("a").data)]].map ReadEv.chunk)
    ∧ bufRun (([unlines [tdLine (("a").data)]] ++ [tdLine (("x").data)]).map ReadEv.chunk) =
        bufRun ([unlines [tdLine (("a").data)]].map ReadEv.chunk))
  ∧ streamRun (([unlines [tdLine (("a").data)]] ++ [tdLine (("x").data)]).map ReadEv.chunk) =
      .closed [OutFrame.chunk (Json.str (("a").data)), OutFrame.done] :=
  ⟨by decide,
    C10_trailing_fragment_discarded [unlines [tdLine (("a").data)]] (tdLine (("x").data))
      (by decide),
    rfl⟩
